import Mathlib

/-!
Shallow embedding of `bitcoin_scraper.py`: a paginated table scraper with
retry/backoff fetching, row validation, buffered CSV persistence and a
keyword search over the persisted dataset.

Modelling conventions:
* HTML pages are embedded at the level of the parsed soup: a page is either
  "no table found" or a table given as a list of rows, each row a list of
  cell texts plus the anchor found inside the fifth cell.
* File-system and network effects are embedded as explicit oracles and event
  traces; an exception is an explicit `Except.error`.
* `pandas` CSV round-trips are modelled as the identity on row lists; the
  string forms of the cells of a loaded dataframe are taken as given.
* Python's `str.strip` is modelled over the ASCII whitespace characters.
-/

namespace BitcoinScraper

/-- ASCII whitespace characters removed by Python `str.strip()`. -/
def pyWhitespace (c : Char) : Bool :=
  c == ' ' || c == '\t' || c == '\n' || c == '\r' || c == Char.ofNat 11 || c == Char.ofNat 12

/-- Model of Python `str.strip()` (restricted to ASCII whitespace). -/
def pyStrip (s : String) : String :=
  ⟨((s.data.dropWhile pyWhitespace).reverse.dropWhile pyWhitespace).reverse⟩

/-- `startsWithL pat l` : `l` starts with `pat` (on character lists). -/
def startsWithL : List Char → List Char → Bool
  | [], _ => true
  | _ :: _, [] => false
  | a :: as, b :: bs => a == b && startsWithL as bs

/-- Python's substring test `pat in s`, on character lists. -/
def isInfixB (pat : List Char) : List Char → Bool
  | [] => pat.isEmpty
  | c :: cs => startsWithL pat (c :: cs) || isInfixB pat cs

/-- Python's substring test `pat in s` on strings. -/
def substrB (pat s : String) : Bool := isInfixB pat.data s.data

/-- `s.lower()` (ASCII-faithful model of case folding). -/
def lowerStr (s : String) : String := ⟨s.data.map Char.toLower⟩

/-- Membership in the character class `[a-zA-HJ-NP-Z0-9]` of the address
regex at `bitcoin_scraper.py:161`. -/
def addrChar (c : Char) : Bool :=
  (decide ('a' ≤ c) && decide (c ≤ 'z')) ||
  (decide ('A' ≤ c) && decide (c ≤ 'H')) ||
  (decide ('J' ≤ c) && decide (c ≤ 'N')) ||
  (decide ('P' ≤ c) && decide (c ≤ 'Z')) ||
  (decide ('0' ≤ c) && decide (c ≤ '9'))

/-- Anchored match of `(bc1|[13])[a-zA-HJ-NP-Z0-9]{25,90}` against a whole
character list.  The two alternatives are distinguished by the first
character, so the backtracking behaviour of Python `re` collapses to this
case split. -/
def addrFull : List Char → Bool
  | 'b' :: 'c' :: '1' :: rest =>
      decide (25 ≤ rest.length) && decide (rest.length ≤ 90) && rest.all addrChar
  | c :: rest =>
      (c == '1' || c == '3') &&
      decide (25 ≤ rest.length) && decide (rest.length ≤ 90) && rest.all addrChar
  | [] => false

/-- `re.match(r'^(bc1|[13])[a-zA-HJ-NP-Z0-9]{25,90}$', s)` is truthy
(`bitcoin_scraper.py:161`).  Python's `$` also matches just before a single
trailing newline, hence the second disjunct. -/
def re_match_address (s : String) : Bool :=
  addrFull s.data ||
    (match s.data.getLast? with
     | some c => c == '\n' && addrFull s.data.dropLast
     | none => false)

/-- Module-level constants of `bitcoin_scraper.py`. -/
def BASE_URL : String := "https://privatekeyfinder.io/private-keys/bitcoin/"

def RETRY_LIMIT : Nat := 5

def SAVE_INTERVAL : Nat := 3

/-- One extracted table row (`record` dict, `bitcoin_scraper.py:165-172`). -/
structure Record where
  index : String
  address : String
  balance : String
  private_key : String
  details_url : String
  timestamp : String
  deriving Repr, DecidableEq

/-- One `<tr>` as seen through BeautifulSoup: the texts of its `<td>` cells
and the anchor found by `cols[4].find('a')`.  `linkA = none` means no `<a>`
tag; `linkA = some none` means an `<a>` tag without an `href` attribute
(for which `details_link['href']` raises `KeyError`);
`linkA = some (some h)` means an `<a href=h>`. -/
structure SRow where
  tds : List String
  linkA : Option (Option String)
  deriving Repr, DecidableEq

/-- The table located by `soup.find('table', class 'table-striped')`,
as its list of `<tr>` rows (header row included). -/
structure STable where
  trs : List SRow
  deriving Repr, DecidableEq

/-- A page body after BeautifulSoup parsing: `none` when no matching table
exists. -/
abbrev PageSoup := Option STable

/-- Exceptions that can escape `_parse_page`. -/
inductive PErr where
  | keyErrorHref
  deriving Repr, DecidableEq

/-- Log messages emitted by the scraper (payloads abstract the formatted
text). -/
inductive LogEv where
  | errTableNotFound
  | infoNoRows
  | warnInvalidAddress (address : String)
  | infoSaved (n : Nat)
  | errSaveFailed
  | infoMaxPages
  | infoTestMode
  | infoInterrupted
  | errPageFailed (page : Nat)
  | infoEmptyStop
  | infoNoMorePages
  | errCritical
  | infoComplete (total : Nat)
  deriving Repr, DecidableEq

/-- The per-row loop of `_parse_page` (`bitcoin_scraper.py:151-173`).
`join` stands for `urljoin(BASE_URL, ·)`, `now` for successive values of
`pd.Timestamp.now().isoformat()` (one clock tick per record built).
Returns the page records (or the exception that escaped), the log trace,
and the advanced clock.  Note the source reads `details_link['href']`
*before* validating the address, so a missing `href` raises even on a row
whose address would be rejected. -/
def parseRows (join : String → String) (now : Nat → String) :
    List SRow → Nat → Except PErr (List Record) × List LogEv × Nat
  | [], clock => (.ok [], [], clock)
  | row :: rest, clock =>
    match row.tds with
    | c0 :: c1 :: c2 :: c3 :: _ :: _ =>
      match row.linkA with
      | some none => (.error .keyErrorHref, [], clock)
      | la =>
        let details_url : String :=
          match la with
          | some (some h) => join h
          | _ => ""
        let address := pyStrip c1
        if re_match_address address then
          let r : Record :=
            { index := pyStrip c0, address := address, balance := pyStrip c2,
              private_key := pyStrip c3, details_url := details_url,
              timestamp := now clock }
          match parseRows join now rest (clock + 1) with
          | (.ok ds, logs, clk) => (.ok (r :: ds), logs, clk)
          | (.error e, logs, clk) => (.error e, logs, clk)
        else
          match parseRows join now rest clock with
          | (res, logs, clk) => (res, .warnInvalidAddress address :: logs, clk)
    | _ => parseRows join now rest clock

/-- `_parse_page` (`bitcoin_scraper.py:136-175`): locate the table, drop the
header row, then run the per-row loop. -/
def parse_page (join : String → String) (now : Nat → String)
    (soup : PageSoup) (clock : Nat) :
    Except PErr (List Record) × List LogEv × Nat :=
  match soup with
  | none => (.ok [], [.errTableNotFound], clock)
  | some t =>
    match t.trs with
    | [] => (.ok [], [.infoNoRows], clock)
    | _ :: [] => (.ok [], [.infoNoRows], clock)
    | _ :: r :: rows => parseRows join now (r :: rows) clock

/-- Store state: the in-memory buffer `self.scraped_data` and the persistent
CSV file (`none` when `os.path.exists` is false; CSV read/write is modelled
as the identity on the stored row list). -/
structure StoreSt where
  scraped_data : List Record
  file : Option (List Record)
  deriving Repr, DecidableEq

/-- File-system operations attempted during a flush. -/
inductive FsEv where
  | readFile
  | writeFile (rows : List Record)
  deriving Repr, DecidableEq

/-- Exceptions arising inside the `try` block of `_save_progress`. -/
inductive FsErr where
  | readErr
  | writeErr
  deriving Repr, DecidableEq

def exceptIsOk {ε α : Type} : Except ε α → Bool
  | .ok _ => true
  | .error _ => false

def fileRows : Option (List Record) → List Record
  | none => []
  | some l => l

/-- The `try` block of `_save_progress` (`bitcoin_scraper.py:181-192`),
for a non-empty buffer.  `readOk` / `writeOk` are oracles for whether
`pd.read_csv` / `to_csv` raise.  Returns the attempted file operations, the
logs of the block, and either the new store state or the exception.
A failed write leaves the modelled file contents unchanged. -/
def save_try (readOk writeOk force_save : Bool) (s : StoreSt) :
    List FsEv × List LogEv × Except FsErr StoreSt :=
  match s.file with
  | some rows =>
    if !readOk then ([.readFile], [], .error .readErr)
    else
      let combined := rows ++ s.scraped_data
      if !writeOk then ([.readFile, .writeFile combined], [], .error .writeErr)
      else ([.readFile, .writeFile combined],
            if force_save then [.infoSaved s.scraped_data.length] else [],
            .ok { scraped_data := s.scraped_data, file := some combined })
  | none =>
    if !writeOk then ([.writeFile s.scraped_data], [], .error .writeErr)
    else ([.writeFile s.scraped_data],
          if force_save then [.infoSaved s.scraped_data.length] else [],
          .ok { scraped_data := s.scraped_data, file := some s.scraped_data })

/-- `_save_progress` (`bitcoin_scraper.py:177-196`): early return on an
empty buffer; otherwise run the `try` block, catch any exception
(logging `errSaveFailed`), and clear the buffer in the `finally` block on
both paths.  Total: no exception ever propagates to the caller. -/
def save_progress (force_save readOk writeOk : Bool) (s : StoreSt) :
    StoreSt × List FsEv × List LogEv :=
  if s.scraped_data.isEmpty then (s, [], [])
  else
    match save_try readOk writeOk force_save s with
    | (fsevs, logs, .ok s2) => ({ s2 with scraped_data := [] }, fsevs, logs)
    | (fsevs, logs, .error _) =>
        ({ s with scraped_data := [] }, fsevs, logs ++ [.errSaveFailed])

/-- URL of a given page (`bitcoin_scraper.py:215`). -/
def page_url (page : Nat) : String :=
  if page > 1 then BASE_URL ++ "?page=" ++ toString page else BASE_URL

/-- `if self.max_pages and page > self.max_pages` — Python truthiness makes
a limit of `0` behave like no limit. -/
def max_pages_hit (mp : Option Nat) (page : Nat) : Bool :=
  match mp with
  | none => false
  | some m => !(m == 0) && decide (page > m)

/-- Is the external interrupt delivered while this page is processed? -/
def interrupt_hit (ia : Option Nat) (page : Nat) : Bool :=
  match ia with
  | some p => p == page
  | none => false

/-- The fetched content of one page, after the fetcher succeeded: the parsed
soup of `response.text` and whether `soup.find('a', rel next)` is present. -/
structure FetchedPage where
  soup : PageSoup
  hasNext : Bool

/-- Oracles and configuration for one scrape run.  `fetch url` is the result
of `_request_with_retry(url)` (`none` = all attempts failed); `readOk` /
`writeOk` are indexed by the number of `_save_progress` calls made so far;
`interruptAt = some p` delivers a `KeyboardInterrupt` while page `p` is
being processed. -/
structure ScrapeEnv where
  fetch : String → Option FetchedPage
  join : String → String
  now : Nat → String
  readOk : Nat → Bool
  writeOk : Nat → Bool
  interruptAt : Option Nat
  test_mode : Bool
  max_pages : Option Nat

/-- Why `scrape_database`'s loop ended. -/
inductive StopReason where
  | maxPagesReached
  | testModeDone
  | interrupted
  | pageUnavailable
  | threeEmpty
  | noMorePages
  | crashed
  deriving Repr, DecidableEq

/-- Observable events of a scrape run, in order. -/
inductive RunEv where
  | sleepPoliteness
  | fs (e : FsEv)
  | log (e : LogEv)
  | sessionClose
  deriving Repr, DecidableEq

/-- Mutable state of `scrape_database`'s loop.  `produced` is a ghost field
recording every record ever appended to the buffer (never cleared). -/
structure ScrapeSt where
  page : Nat
  total_records : Nat
  consecutive_empty : Nat
  store : StoreSt
  clock : Nat
  flushes : Nat
  produced : List Record
  deriving Repr, DecidableEq

inductive IterOut where
  | continueWith (s : ScrapeSt) (evs : List RunEv)
  | stopWith (r : StopReason) (s : ScrapeSt) (evs : List RunEv)

def iterSt : IterOut → ScrapeSt
  | .continueWith s _ => s
  | .stopWith _ s _ => s

/-- Tail of one loop iteration after the consecutive-empty check: periodic
flush (`page % SAVE_INTERVAL == 0`), then the next-page check. -/
def scrape_iter_tail (env : ScrapeEnv) (fp : FetchedPage) (logs : List LogEv)
    (s1 : ScrapeSt) : IterOut :=
  let flushed : ScrapeSt × List RunEv :=
    if s1.page % SAVE_INTERVAL == 0 then
      let t := save_progress false (env.readOk s1.flushes) (env.writeOk s1.flushes) s1.store
      ({ s1 with store := t.1, flushes := s1.flushes + 1 },
       t.2.1.map RunEv.fs ++ t.2.2.map RunEv.log)
    else (s1, [])
  let evs := [RunEv.sleepPoliteness] ++ logs.map RunEv.log ++ flushed.2
  if !fp.hasNext then
    .stopWith .noMorePages flushed.1 (evs ++ [.log .infoNoMorePages])
  else
    .continueWith { flushed.1 with page := flushed.1.page + 1 } evs

/-- One iteration of the `while True` loop (`bitcoin_scraper.py:207-249`),
with the checks in source order: max-pages limit, test-mode cap, politeness
sleep (where an interrupt is delivered), fetch, parse (whose exceptions
reach the outer `except Exception`), consecutive-empty-pages stop, periodic
flush, next-page check. -/
def scrape_iter (env : ScrapeEnv) (s : ScrapeSt) : IterOut :=
  if max_pages_hit env.max_pages s.page then
    .stopWith .maxPagesReached s [.log .infoMaxPages]
  else if env.test_mode && decide (s.page > 2) then
    .stopWith .testModeDone s [.log .infoTestMode]
  else if interrupt_hit env.interruptAt s.page then
    .stopWith .interrupted s [.log .infoInterrupted]
  else
    match env.fetch (page_url s.page) with
    | none =>
        .stopWith .pageUnavailable s [.sleepPoliteness, .log (.errPageFailed s.page)]
    | some fp =>
      match parse_page env.join env.now fp.soup s.clock with
      | (.error _, logs, clk) =>
          .stopWith .crashed { s with clock := clk }
            ([.sleepPoliteness] ++ logs.map .log ++ [.log .errCritical])
      | (.ok data, logs, clk) =>
        let s1 : ScrapeSt :=
          if data.isEmpty then
            { s with consecutive_empty := s.consecutive_empty + 1, clock := clk }
          else
            { s with consecutive_empty := 0,
                     store := { s.store with
                                scraped_data := s.store.scraped_data ++ data },
                     produced := s.produced ++ data,
                     total_records := s.total_records + data.length,
                     clock := clk }
        if data.isEmpty && decide (s1.consecutive_empty ≥ 3) then
          .stopWith .threeEmpty s1
            ([.sleepPoliteness] ++ logs.map .log ++ [.log .infoEmptyStop])
        else
          scrape_iter_tail env fp logs s1

/-- Fuel-indexed unfolding of the loop; `none` means the fuel ran out before
any stop condition fired. -/
def scrape_loop (env : ScrapeEnv) : Nat → ScrapeSt → Option (StopReason × ScrapeSt × List RunEv)
  | 0, _ => none
  | fuel + 1, s =>
    match scrape_iter env s with
    | .stopWith r s2 evs => some (r, s2, evs)
    | .continueWith s2 evs =>
        (scrape_loop env fuel s2).map (fun out => (out.1, out.2.1, evs ++ out.2.2))

/-- The `finally` block (`bitcoin_scraper.py:255-258`): forced flush, final
log line, session close. -/
def scrape_finalize (env : ScrapeEnv) (s : ScrapeSt) : ScrapeSt × List RunEv :=
  let t := save_progress true (env.readOk s.flushes) (env.writeOk s.flushes) s.store
  ({ s with store := t.1, flushes := s.flushes + 1 },
   t.2.1.map RunEv.fs ++ t.2.2.map RunEv.log ++
     [.log (.infoComplete s.total_records), .sessionClose])

/-- Initial state of a run over a possibly pre-existing output file. -/
def initSt (initFile : Option (List Record)) : ScrapeSt :=
  { page := 1, total_records := 0, consecutive_empty := 0,
    store := { scraped_data := [], file := initFile },
    clock := 0, flushes := 0, produced := [] }

/-- `scrape_database` (`bitcoin_scraper.py:198-260`): run the loop, then on
every exit path run the `finally` block and return `total_records`. -/
def scrape_database (env : ScrapeEnv) (fuel : Nat) (initFile : Option (List Record)) :
    Option (Nat × StopReason × ScrapeSt × List RunEv) :=
  (scrape_loop env fuel (initSt initFile)).map fun out =>
    let fin := scrape_finalize env out.2.1
    (fin.1.total_records, out.1, fin.1, out.2.2 ++ fin.2)

/-! ### The fetcher `_request_with_retry` (`bitcoin_scraper.py:94-134`) -/

/-- What one HTTP attempt yields before classification: a raised transport
exception (network error, timeout, proxy error, `raise_for_status`), or a
completed response with the given body text. -/
inductive AttemptOutcome where
  | transportError
  | body (text : String)

/-- Oracles for the retry loop: the outcome of each attempt (0-based) and
the value of `random.random()` used for each backoff jitter. -/
structure RetryEnv where
  outcome : Nat → AttemptOutcome
  jitter : Nat → ℚ

/-- `blocking_indicators` (`bitcoin_scraper.py:116-119`). -/
def blocking_indicators : List String :=
  ["cloudflare", "access denied", "captcha", "403 forbidden", "blocked", "security check"]

/-- Classification of one attempt (`bitcoin_scraper.py:114-126`): transport
failure, blocked body, or missing table marker all count as failures; only
a body that passes both checks is returned. -/
def attempt_ok : AttemptOutcome → Option String
  | .transportError => none
  | .body t =>
    if blocking_indicators.any (fun ind => substrB ind (lowerStr t)) then none
    else if substrB "table table-striped" t then some t
    else none

/-- The `for attempt in range(RETRY_LIMIT)` loop starting at a given
attempt index with the given number of attempts remaining.  On each failure
the fetcher sleeps `2 ** attempt + random.random()` seconds (recorded in the
returned list) and retries; exhausting the attempts yields `none`. -/
def retryFrom (env : RetryEnv) : Nat → Nat → Option String × List ℚ
  | _, 0 => (none, [])
  | attempt, n + 1 =>
    match attempt_ok (env.outcome attempt) with
    | some t => (some t, [])
    | none =>
      let w : ℚ := (2 ^ attempt : ℚ) + env.jitter attempt
      let rest := retryFrom env (attempt + 1) n
      (rest.1, w :: rest.2)

/-- `_request_with_retry`: the full loop over `range(RETRY_LIMIT)`. -/
def request_with_retry (env : RetryEnv) : Option String × List ℚ :=
  retryFrom env 0 RETRY_LIMIT

/-! ### `search_database` (`bitcoin_scraper.py:262-297`) -/

/-- One row of the loaded dataframe, as the string forms
(`row.astype(str)`) of its cells. -/
abbrev DBRow := List String

/-- `--format` choices. -/
inductive OutputFormat where
  | console
  | csv
  | json
  deriving Repr, DecidableEq

/-- Observable effects of `search_database`. -/
inductive SearchEv where
  | logNoDatabase
  | logNoMatches
  | printConsole (rows : List DBRow)
  | writeCsvFile (name : String) (rows : List DBRow)
  | writeJsonFile (name : String) (rows : List DBRow)
  | logFound (n : Nat)
  deriving Repr, DecidableEq

/-- Token of the modelled regex fragment: a literal character or the `.`
wildcard. -/
inductive RTok where
  | lit (c : Char)
  | dot
  deriving Repr, DecidableEq

/-- Python `re` metacharacters other than `.` (patterns containing these
are outside the modelled fragment). -/
def reMeta (c : Char) : Bool :=
  c == '^' || c == '$' || c == '*' || c == '+' || c == '?' ||
  c == Char.ofNat 123 || c == Char.ofNat 125 ||
  c == '[' || c == ']' || c == '\\' || c == '|' || c == '(' || c == ')'

/-- Compile a keyword to the modelled regex fragment; `none` when the
keyword uses an unmodelled metacharacter. -/
def compileChars : List Char → Option (List RTok)
  | [] => some []
  | c :: cs =>
    if reMeta c then none
    else (compileChars cs).map
      (fun ts => (if c == '.' then RTok.dot else RTok.lit c) :: ts)

def compileRegex (kw : String) : Option (List RTok) := compileChars kw.data

/-- One token against one character, under `re.IGNORECASE`; `.` does not
match a newline. -/
def tokMatches : RTok → Char → Bool
  | .lit p, c => p.toLower == c.toLower
  | .dot, c => !(c == '\n')

/-- Does the token list match a prefix of `cs`? -/
def matchesAt : List RTok → List Char → Bool
  | [], _ => true
  | _ :: _, [] => false
  | t :: ts, c :: cs => tokMatches t c && matchesAt ts cs

/-- `re.search`: does the token list match starting at some position? -/
def reSearchL (toks : List RTok) : List Char → Bool
  | [] => matchesAt toks []
  | c :: cs => matchesAt toks (c :: cs) || reSearchL toks cs

def reSearchS (toks : List RTok) (s : String) : Bool := reSearchL toks s.data

/-- The row mask of `bitcoin_scraper.py:273`:
`row.astype(str).str.contains(keyword, case=False).any()` — note
`str.contains` interprets the keyword as a regular expression. -/
def rowMatches (toks : List RTok) (row : DBRow) : Bool :=
  row.any (fun cell => reSearchS toks cell)

/-- `search_database` (`bitcoin_scraper.py:262-297`).  `file` is the loaded
dataframe as string-form rows (`none` when the database file is missing).
Returns `none` when the keyword falls outside the modelled regex fragment;
otherwise the returned rows together with the emitted effects. -/
def search_database (kw : String) (file : Option (List DBRow)) (fmt : OutputFormat) :
    Option (List DBRow × List SearchEv) :=
  match file with
  | none => some ([], [.logNoDatabase])
  | some df =>
    match compileRegex kw with
    | none => none
    | some toks =>
      let results := df.filter (fun row => rowMatches toks row)
      if results.isEmpty then some ([], [.logNoMatches])
      else
        match fmt with
        | .console => some (results, [.printConsole results, .logFound results.length])
        | .csv =>
            some (results,
              [.writeCsvFile ("search_results_" ++ kw ++ ".csv") results,
               .logFound results.length])
        | .json =>
            some (results,
              [.writeJsonFile ("search_results_" ++ kw ++ ".json") results,
               .logFound results.length])

/-- The predicate stated by the specification for search (§4.5/§8), written
from the spec's words for comparison with `search_database`: the
case-insensitive string form of a column contains the keyword as a
substring. -/
def ciContains (kw cell : String) : Bool :=
  isInfixB (lowerStr kw).data (lowerStr cell).data

/-! ### Predicates used by the verification statements -/

/-- Every record in the list has a syntactically valid address. -/
def allValid (l : List Record) : Prop :=
  ∀ r ∈ l, re_match_address r.address = true

/-- Both the buffer and the persistent file hold only valid records. -/
def storeOK (st : StoreSt) : Prop :=
  allValid st.scraped_data ∧ allValid (fileRows st.file)

/-- Loop invariant of `scrape_database`: the store holds only valid
records, so does the ghost list of all records ever produced, and
`total_records` counts exactly the produced records. -/
def fullInv (s : ScrapeSt) : Prop :=
  storeOK s.store ∧ allValid s.produced ∧ s.total_records = s.produced.length

/-- Scenario environment: every page fetches successfully, carries a
next-page indicator, and parses to zero records. -/
def envAllEmptyNext (env : ScrapeEnv) : Prop :=
  env.interruptAt = none ∧ env.test_mode = false ∧ env.max_pages = none ∧
  ∀ p : Nat, ∃ fp, env.fetch (page_url p) = some fp ∧ fp.hasNext = true ∧
    ∀ c, ∃ logs, parse_page env.join env.now fp.soup c = (.ok [], logs, c)

/-- Scenario environment: every page fetches successfully, carries a
next-page indicator, and parses to at least one record. -/
def envAllFullNext (env : ScrapeEnv) : Prop :=
  env.interruptAt = none ∧ env.test_mode = false ∧
  ∀ p : Nat, ∃ fp, env.fetch (page_url p) = some fp ∧ fp.hasNext = true ∧
    ∀ c, ∃ ds logs clk,
      parse_page env.join env.now fp.soup c = (.ok ds, logs, clk) ∧ ds ≠ []

/-! ### Concrete fixtures used by the witness statements -/

/-- A well-formed address (1 + 33 characters from the allowed class). -/
def addrW : String := "1BoatSLRHtKNngkdXEeobR76b53LETtpyT"

/-- A concrete valid data row. -/
def rowW : SRow :=
  { tds := ["1", addrW, "0.5 BTC", "KwDiBf89QgGbjEhKnhXJuH7LrciVrZi3qY", "view"],
    linkA := some (some "details/1") }

/-- A concrete row with a malformed address. -/
def rowBad : SRow :=
  { tds := ["2", "not-an-address", "0", "k", "view"], linkA := none }

/-- Header row of the fixtures. -/
def rowHdr : SRow := { tds := [], linkA := none }

/-- A one-data-row page with a valid record. -/
def pageW : PageSoup := some { trs := [rowHdr, rowW] }

/-- The record produced from `rowW` at clock 0 under the identity join and
the constant timestamp oracle. -/
def recW : Record :=
  { index := "1", address := addrW, balance := "0.5 BTC",
    private_key := "KwDiBf89QgGbjEhKnhXJuH7LrciVrZi3qY",
    details_url := "details/1", timestamp := "ts" }

/-- Scrape environment for witnesses: one page, valid row, no next page. -/
def envW : ScrapeEnv :=
  { fetch := fun u => if u == BASE_URL then some { soup := pageW, hasNext := false } else none,
    join := fun u => u, now := fun _ => "ts",
    readOk := fun _ => true, writeOk := fun _ => true,
    interruptAt := none, test_mode := false, max_pages := none }

/-- Scrape environment for witnesses: every page empty, always a next page. -/
def envEmptyW : ScrapeEnv :=
  { fetch := fun _ => some { soup := some { trs := [rowHdr] }, hasNext := true },
    join := fun u => u, now := fun _ => "ts",
    readOk := fun _ => true, writeOk := fun _ => true,
    interruptAt := none, test_mode := false, max_pages := none }

/-- Scrape environment for witnesses: every page has one valid record and a
next page, with a page limit of 2. -/
def envFullW : ScrapeEnv :=
  { fetch := fun _ => some { soup := pageW, hasNext := true },
    join := fun u => u, now := fun _ => "ts",
    readOk := fun _ => true, writeOk := fun _ => true,
    interruptAt := none, test_mode := false, max_pages := some 2 }

/-- Retry environment for witnesses: three transport failures, then a good
body; jitter constantly 1/2. -/
def renvW : RetryEnv :=
  { outcome := fun i =>
      if i < 3 then .transportError
      else .body "<html><table class=x>table table-striped</table></html>",
    jitter := fun _ => (1 : ℚ) / 2 }

/-- Retry environment for witnesses: every attempt fails in transport. -/
def renvFailW : RetryEnv :=
  { outcome := fun _ => .transportError, jitter := fun _ => (1 : ℚ) / 2 }

/-! ## Store lemmas -/

theorem isEmpty_false_of_ne {α : Type} {l : List α} (h : l ≠ []) : l.isEmpty = false := by
  cases l with
  | nil => exact absurd rfl h
  | cons a as => rfl

/-- C3: flushing an empty buffer is the identity: no file events, no logs,
state untouched, and (being a plain total function) nothing raised. -/
theorem c3_empty_flush_noop (force readOk writeOk : Bool) (s : StoreSt)
    (h : s.scraped_data = []) :
    save_progress force readOk writeOk s = (s, [], []) := by
  simp [save_progress, h]

/-- C3 witness. -/
theorem c3_empty_flush_noop_witness :
    save_progress true false false { scraped_data := [], file := some [recW] }
      = ({ scraped_data := [], file := some [recW] }, [], []) :=
  c3_empty_flush_noop true false false _ rfl

/-- C2: flushing a non-empty buffer of `N` records onto an existing file of
`M` rows rewrites the file to exactly the `M` old rows (first, in order)
followed by the `N` buffered rows (in buffer order), and clears the
buffer. -/
theorem c2_merge_rows (force : Bool) (s : StoreSt) (rows buf : List Record)
    (hf : s.file = some rows) (hb : s.scraped_data = buf) (hne : buf ≠ []) :
    (save_progress force true true s).1.file = some (rows ++ buf)
    ∧ (save_progress force true true s).1.scraped_data = []
    ∧ (rows ++ buf).length = rows.length + buf.length
    ∧ (rows ++ buf).take rows.length = rows
    ∧ (rows ++ buf).drop rows.length = buf := by
  subst hb
  have hE : s.scraped_data.isEmpty = false := isEmpty_false_of_ne hne
  refine ⟨?_, ?_, ?_, ?_, ?_⟩
  · simp [save_progress, save_try, hE, hf]
  · simp [save_progress, save_try, hE, hf]
  · simp
  · simp
  · simp

/-- C2 witness. -/
theorem c2_merge_rows_witness :
    ([recW] : List Record) ≠ []
    ∧ (save_progress false true true
        { scraped_data := [recW], file := some [recW, recW] }).1.file
        = some ([recW, recW] ++ [recW]) :=
  ⟨by simp, (c2_merge_rows false _ [recW, recW] [recW] rfl rfl (by simp)).1⟩

/-- C4: when the read or write inside a non-empty flush raises, the
exception is caught (the call still returns normally), an error is logged,
the file is not updated, and the buffer is cleared anyway, losing the
buffered records. -/
theorem c4_flush_failure_clears (force readOk writeOk : Bool) (s : StoreSt)
    (hne : s.scraped_data ≠ [])
    (hfail : exceptIsOk (save_try readOk writeOk force s).2.2 = false) :
    (save_progress force readOk writeOk s).1.scraped_data = []
    ∧ (save_progress force readOk writeOk s).1.file = s.file
    ∧ LogEv.errSaveFailed ∈ (save_progress force readOk writeOk s).2.2 := by
  have hE : s.scraped_data.isEmpty = false := isEmpty_false_of_ne hne
  rcases hsv : save_try readOk writeOk force s with ⟨fsevs, logs, res⟩
  cases res with
  | ok s2 =>
      rw [hsv] at hfail
      simp [exceptIsOk] at hfail
  | error e =>
      refine ⟨?_, ?_, ?_⟩ <;> simp [save_progress, hE, hsv]

/-- C4 witness. -/
theorem c4_flush_failure_clears_witness :
    ([recW] : List Record) ≠ []
    ∧ exceptIsOk (save_try false true false
        { scraped_data := [recW], file := some [] }).2.2 = false
    ∧ (save_progress false false true
        { scraped_data := [recW], file := some [] }).1.scraped_data = [] :=
  ⟨by simp, by rfl,
   (c4_flush_failure_clears false false true
      { scraped_data := [recW], file := some [] } (by simp) (by rfl)).1⟩

/-! ## Parser lemmas -/

theorem parseRows_ok_valid (join : String → String) (now : Nat → String) :
    ∀ (rows : List SRow) (clock : Nat) (ds : List Record) (logs : List LogEv) (clk : Nat),
      parseRows join now rows clock = (.ok ds, logs, clk) → allValid ds := by
  intro rows
  induction rows with
  | nil =>
      intro clock ds logs clk h
      simp only [parseRows, Prod.mk.injEq, Except.ok.injEq] at h
      obtain ⟨h1, -, -⟩ := h
      subst h1
      intro r hr
      cases hr
  | cons row rest ih =>
      intro clock ds logs clk h
      simp only [parseRows] at h
      split at h
      case h_1 c0 c1 c2 c3 c4 tl heq =>
        split at h
        · simp at h
        case h_2 la hne =>
          split at h
          case isTrue hval =>
            split at h
            case h_1 ds2 logs2 clk2 heq2 =>
              simp only [Prod.mk.injEq, Except.ok.injEq] at h
              obtain ⟨h1, -, -⟩ := h
              subst h1
              intro r hr
              rcases List.mem_cons.mp hr with hr | hr
              · subst hr; exact hval
              · exact ih _ _ _ _ heq2 r hr
            case h_2 e logs2 clk2 heq2 =>
              simp at h
          case isFalse hval =>
            rcases hres : parseRows join now rest clock with ⟨res, logs2, clk2⟩
            rw [hres] at h
            simp only [Prod.mk.injEq] at h
            obtain ⟨h1, -, -⟩ := h
            rw [h1] at hres
            exact ih _ _ _ _ hres
      case h_2 =>
        exact ih _ _ _ _ h

theorem parseRows_warns (join : String → String) (now : Nat → String) :
    ∀ (rows : List SRow) (clock : Nat) (row : SRow)
      (c0 c1 c2 c3 c4 : String) (tl : List String)
      (ds : List Record) (logs : List LogEv) (clk : Nat),
      row ∈ rows → row.tds = c0 :: c1 :: c2 :: c3 :: c4 :: tl →
      re_match_address (pyStrip c1) = false →
      parseRows join now rows clock = (.ok ds, logs, clk) →
      LogEv.warnInvalidAddress (pyStrip c1) ∈ logs := by
  intro rows
  induction rows with
  | nil =>
      intro clock row c0 c1 c2 c3 c4 tl ds logs clk hmem
      cases hmem
  | cons row0 rest ih =>
      intro clock row c0 c1 c2 c3 c4 tl ds logs clk hmem htds hbad h
      simp only [parseRows] at h
      rcases List.mem_cons.mp hmem with hrow | hrow
      · subst hrow
        split at h
        case h_2 hns =>
          exact (hns c0 c1 c2 c3 c4 tl htds).elim
        case h_1 c0x c1x c2x c3x c4x tlx heq =>
          rw [htds] at heq
          obtain ⟨-, h1, -, -, -, -⟩ : c0 = c0x ∧ c1 = c1x ∧ c2 = c2x ∧ c3 = c3x ∧ c4 = c4x ∧ tl = tlx := by
            simpa using heq
          subst h1
          split at h
          · simp at h
          case h_2 la hne =>
            split at h
            case isTrue hval => exact absurd hval (by simp [hbad])
            case isFalse hval =>
              rcases hres : parseRows join now rest clock with ⟨res, logs2, clk2⟩
              rw [hres] at h
              simp only [Prod.mk.injEq] at h
              obtain ⟨-, h2, -⟩ := h
              rw [← h2]
              exact List.mem_cons_self _ _
      · split at h
        case h_2 hns =>
          exact ih _ _ _ _ _ _ _ _ _ _ _ hrow htds hbad h
        case h_1 c0x c1x c2x c3x c4x tlx heq =>
          split at h
          · simp at h
          case h_2 la hne =>
            split at h
            case isTrue hval =>
              split at h
              case h_1 ds2 logs2 clk2 heq2 =>
                simp only [Prod.mk.injEq, Except.ok.injEq] at h
                obtain ⟨-, h2, -⟩ := h
                rw [← h2]
                exact ih _ _ _ _ _ _ _ _ _ _ _ hrow htds hbad heq2
              case h_2 e logs2 clk2 heq2 =>
                simp at h
            case isFalse hval =>
              rcases hres : parseRows join now rest clock with ⟨res, logs2, clk2⟩
              rw [hres] at h
              simp only [Prod.mk.injEq] at h
              obtain ⟨h1, h2, -⟩ := h
              rw [h1] at hres
              rw [← h2]
              exact List.mem_cons_of_mem _
                (ih _ _ _ _ _ _ _ _ _ _ _ hrow htds hbad hres)

theorem parse_page_ok_valid (join : String → String) (now : Nat → String)
    (soup : PageSoup) (clock : Nat) (ds : List Record) (logs : List LogEv) (clk : Nat)
    (h : parse_page join now soup clock = (.ok ds, logs, clk)) : allValid ds := by
  unfold parse_page at h
  split at h
  · simp only [Prod.mk.injEq, Except.ok.injEq] at h
    obtain ⟨h1, -, -⟩ := h
    subst h1; intro r hr; cases hr
  · split at h
    · simp only [Prod.mk.injEq, Except.ok.injEq] at h
      obtain ⟨h1, -, -⟩ := h
      subst h1; intro r hr; cases hr
    · simp only [Prod.mk.injEq, Except.ok.injEq] at h
      obtain ⟨h1, -, -⟩ := h
      subst h1; intro r hr; cases hr
    · exact parseRows_ok_valid join now _ _ _ _ _ h

theorem parse_page_warns (join : String → String) (now : Nat → String)
    (t : STable) (hdr : SRow) (rows : List SRow) (row : SRow)
    (c0 c1 c2 c3 c4 : String) (tl : List String)
    (clock : Nat) (ds : List Record) (logs : List LogEv) (clk : Nat)
    (ht : t.trs = hdr :: rows) (hmem : row ∈ rows)
    (htds : row.tds = c0 :: c1 :: c2 :: c3 :: c4 :: tl)
    (hbad : re_match_address (pyStrip c1) = false)
    (h : parse_page join now (some t) clock = (.ok ds, logs, clk)) :
    LogEv.warnInvalidAddress (pyStrip c1) ∈ logs := by
  simp only [parse_page] at h
  rw [ht] at h
  cases rows with
  | nil => cases hmem
  | cons r0 rows2 =>
      exact parseRows_warns join now _ _ _ _ _ _ _ _ _ _ _ _ hmem htds hbad h

/-! ## Store and run invariants -/

theorem save_progress_cases (force readOk writeOk : Bool) (s : StoreSt) :
    (save_progress force readOk writeOk s).1 = s
    ∨ (save_progress force readOk writeOk s).1 = { scraped_data := [], file := s.file }
    ∨ (save_progress force readOk writeOk s).1
        = { scraped_data := [], file := some (fileRows s.file ++ s.scraped_data) } := by
  by_cases hE : s.scraped_data.isEmpty = true
  · left; simp [save_progress, hE]
  · replace hE : s.scraped_data.isEmpty = false := by simpa using hE
    cases hfile : s.file with
    | none =>
        cases writeOk with
        | false => right; left; simp [save_progress, save_try, hE, hfile]
        | true => right; right; simp [save_progress, save_try, hE, hfile, fileRows]
    | some rows =>
        cases readOk with
        | false => right; left; simp [save_progress, save_try, hE, hfile]
        | true =>
            cases writeOk with
            | false => right; left; simp [save_progress, save_try, hE, hfile]
            | true => right; right; simp [save_progress, save_try, hE, hfile, fileRows]

theorem save_progress_storeOK (force readOk writeOk : Bool) (s : StoreSt)
    (h : storeOK s) : storeOK (save_progress force readOk writeOk s).1 := by
  obtain ⟨hb, hf⟩ := h
  rcases save_progress_cases force readOk writeOk s with hc | hc | hc <;> rw [hc]
  · exact ⟨hb, hf⟩
  · exact ⟨fun r hr => absurd hr (by simp), hf⟩
  · refine ⟨fun r hr => absurd hr (by simp), ?_⟩
    intro r hr
    simp only [fileRows] at hr
    rcases List.mem_append.mp hr with hr | hr
    · exact hf r hr
    · exact hb r hr

theorem save_progress_buffer_nil (force readOk writeOk : Bool) (s : StoreSt) :
    (save_progress force readOk writeOk s).1.scraped_data = [] := by
  by_cases hE : s.scraped_data.isEmpty = true
  · have : s.scraped_data = [] := by
      cases hd : s.scraped_data with
      | nil => rfl
      | cons a as => rw [hd] at hE; simp at hE
    simp [save_progress, hE, this]
  · replace hE : s.scraped_data.isEmpty = false := by simpa using hE
    unfold save_progress
    rw [if_neg (by simp [hE])]
    rcases hsv : save_try readOk writeOk force s with ⟨fsevs, logs, res⟩
    cases res <;> simp

theorem save_progress_keeps (force readOk writeOk : Bool) (s : StoreSt)
    (hw : writeOk = true) (hr : s.file = none ∨ readOk = true) :
    ∀ x ∈ s.scraped_data, x ∈ fileRows (save_progress force readOk writeOk s).1.file := by
  intro x hx
  have hE : s.scraped_data.isEmpty = false := by
    cases hd : s.scraped_data with
    | nil => rw [hd] at hx; cases hx
    | cons a as => rfl
  subst hw
  cases hfile : s.file with
  | none =>
      simp only [save_progress, save_try, hE, hfile]
      simp [fileRows, hx]
  | some rows =>
      rcases hr with hr | hr
      · rw [hfile] at hr; cases hr
      · subst hr
        simp only [save_progress, save_try, hE, hfile]
        simp [fileRows, hx]

theorem scrape_iter_tail_inv (env : ScrapeEnv) (fp : FetchedPage) (logs : List LogEv)
    (s1 : ScrapeSt) (h : fullInv s1) :
    fullInv (iterSt (scrape_iter_tail env fp logs s1)) := by
  obtain ⟨hst, hp, hc⟩ := h
  unfold scrape_iter_tail
  by_cases hmod : (s1.page % SAVE_INTERVAL == 0) = true
  · simp only [hmod, if_pos]
    by_cases hnx : fp.hasNext = true <;>
      simp only [hnx, Bool.not_true, Bool.not_false, if_pos, if_neg, Bool.false_eq_true,
        not_false_eq_true, iterSt] <;>
      exact ⟨save_progress_storeOK _ _ _ _ hst, hp, hc⟩
  · simp only [Bool.not_eq_true] at hmod
    simp only [hmod]
    by_cases hnx : fp.hasNext = true <;>
      simp only [hnx, Bool.not_true, Bool.not_false, Bool.false_eq_true, not_false_eq_true,
        if_pos, if_neg, iterSt] <;>
      exact ⟨hst, hp, hc⟩

theorem scrape_iter_inv (env : ScrapeEnv) (s : ScrapeSt) (h : fullInv s) :
    fullInv (iterSt (scrape_iter env s)) := by
  obtain ⟨hst, hp, hc⟩ := h
  unfold scrape_iter
  split
  · exact ⟨hst, hp, hc⟩
  split
  · exact ⟨hst, hp, hc⟩
  split
  · exact ⟨hst, hp, hc⟩
  split
  · exact ⟨hst, hp, hc⟩
  case h_2 fp hfp =>
    split
    case h_1 e logs clk heq => exact ⟨hst, hp, hc⟩
    case h_2 data logs clk heq =>
      have hvalid : allValid data := parse_page_ok_valid _ _ _ _ _ _ _ heq
      cases data with
      | nil =>
        simp only [List.isEmpty_nil, Bool.true_and, if_true, reduceIte]
        split
        · exact ⟨hst, hp, hc⟩
        · exact scrape_iter_tail_inv env fp logs _ ⟨hst, hp, hc⟩
      | cons d0 drest =>
        simp only [List.isEmpty_cons, Bool.false_and, Bool.false_eq_true, if_neg,
          not_false_eq_true, reduceIte]
        refine scrape_iter_tail_inv env fp logs _ ⟨⟨?_, hst.2⟩, ?_, ?_⟩
        · intro r hr
          rcases List.mem_append.mp hr with hr | hr
          · exact hst.1 r hr
          · exact hvalid r hr
        · intro r hr
          rcases List.mem_append.mp hr with hr | hr
          · exact hp r hr
          · exact hvalid r hr
        · simp [hc]

theorem scrape_loop_inv (env : ScrapeEnv) :
    ∀ (fuel : Nat) (s : ScrapeSt) (r : StopReason) (s2 : ScrapeSt) (evs : List RunEv),
      fullInv s → scrape_loop env fuel s = some (r, s2, evs) → fullInv s2 := by
  intro fuel
  induction fuel with
  | zero => intro s r s2 evs h hl; simp [scrape_loop] at hl
  | succ n ih =>
      intro s r s2 evs h hl
      simp only [scrape_loop] at hl
      split at hl
      case h_1 r3 s3 evs3 hit =>
          simp only [Option.some.injEq, Prod.mk.injEq] at hl
          obtain ⟨-, h2, -⟩ := hl
          rw [← h2]
          have := scrape_iter_inv env s h
          rw [hit] at this
          exact this
      case h_2 s3 evs3 hit =>
          rcases ho : scrape_loop env n s3 with - | ⟨r4, s4, evs4⟩
          · rw [ho] at hl; simp at hl
          · rw [ho] at hl
            simp only [Option.map_some', Option.some.injEq, Prod.mk.injEq] at hl
            obtain ⟨-, h2, -⟩ := hl
            rw [← h2]
            have h3 : fullInv s3 := by
              have := scrape_iter_inv env s h
              rw [hit] at this
              exact this
            exact ih s3 r4 s4 evs4 h3 ho

theorem scrape_finalize_inv (env : ScrapeEnv) (s : ScrapeSt) (h : fullInv s) :
    fullInv (scrape_finalize env s).1 := by
  obtain ⟨hst, hp, hc⟩ := h
  exact ⟨save_progress_storeOK _ _ _ _ hst, hp, hc⟩

theorem initSt_inv (initFile : Option (List Record)) (h : allValid (fileRows initFile)) :
    fullInv (initSt initFile) :=
  ⟨⟨fun r hr => absurd hr (by simp [initSt]), h⟩, fun r hr => absurd hr (by simp [initSt]), rfl⟩

theorem scrape_database_inv (env : ScrapeEnv) (fuel : Nat)
    (initFile : Option (List Record)) (out : Nat × StopReason × ScrapeSt × List RunEv)
    (hinit : allValid (fileRows initFile))
    (h : scrape_database env fuel initFile = some out) : fullInv out.2.2.1 := by
  unfold scrape_database at h
  rcases ho : scrape_loop env fuel (initSt initFile) with - | ⟨r, s2, evs⟩
  · rw [ho] at h; simp at h
  · rw [ho] at h
    simp only [Option.map_some', Option.some.injEq] at h
    have h2 := scrape_loop_inv env fuel _ _ _ _ (initSt_inv initFile hinit) ho
    rw [← h]
    exact scrape_finalize_inv env s2 h2

/-- The iteration tail never changes the record counters. -/
theorem scrape_iter_tail_fields (env : ScrapeEnv) (fp : FetchedPage) (logs : List LogEv)
    (s1 : ScrapeSt) :
    (iterSt (scrape_iter_tail env fp logs s1)).total_records = s1.total_records
    ∧ (iterSt (scrape_iter_tail env fp logs s1)).produced = s1.produced := by
  unfold scrape_iter_tail
  split
  · split <;> exact ⟨rfl, rfl⟩
  · split <;> exact ⟨rfl, rfl⟩

/-- `total_records` counts the produced records, across one iteration. -/
theorem scrape_iter_count (env : ScrapeEnv) (s : ScrapeSt)
    (h : s.total_records = s.produced.length) :
    (iterSt (scrape_iter env s)).total_records = (iterSt (scrape_iter env s)).produced.length := by
  unfold scrape_iter
  split
  · exact h
  split
  · exact h
  split
  · exact h
  split
  · exact h
  case h_2 fp hfp =>
    split
    case h_1 e logs clk heq => exact h
    case h_2 data logs clk heq =>
      cases data with
      | nil =>
        simp only [List.isEmpty_nil, Bool.true_and, if_true, reduceIte]
        split
        · exact h
        · obtain ⟨h1, h2⟩ := scrape_iter_tail_fields env fp logs _
          rw [h1, h2]
          exact h
      | cons d0 drest =>
        simp only [List.isEmpty_cons, Bool.false_and, Bool.false_eq_true, if_neg,
          not_false_eq_true, reduceIte]
        obtain ⟨h1, h2⟩ := scrape_iter_tail_fields env fp logs _
        rw [h1, h2]
        simp [h]

theorem scrape_loop_count (env : ScrapeEnv) :
    ∀ (fuel : Nat) (s : ScrapeSt) (r : StopReason) (s2 : ScrapeSt) (evs : List RunEv),
      s.total_records = s.produced.length →
      scrape_loop env fuel s = some (r, s2, evs) →
      s2.total_records = s2.produced.length := by
  intro fuel
  induction fuel with
  | zero => intro s r s2 evs h hl; simp [scrape_loop] at hl
  | succ n ih =>
      intro s r s2 evs h hl
      simp only [scrape_loop] at hl
      split at hl
      case h_1 r3 s3 evs3 hit =>
          simp only [Option.some.injEq, Prod.mk.injEq] at hl
          obtain ⟨-, h2, -⟩ := hl
          rw [← h2]
          have := scrape_iter_count env s h
          rw [hit] at this
          exact this
      case h_2 s3 evs3 hit =>
          rcases ho : scrape_loop env n s3 with - | ⟨r4, s4, evs4⟩
          · rw [ho] at hl; simp at hl
          · rw [ho] at hl
            simp only [Option.map_some', Option.some.injEq, Prod.mk.injEq] at hl
            obtain ⟨-, h2, -⟩ := hl
            rw [← h2]
            have h3 : s3.total_records = s3.produced.length := by
              have := scrape_iter_count env s h
              rw [hit] at this
              exact this
            exact ih s3 r4 s4 evs4 h3 ho

/-! ## Claim theorems C1 and C9 -/

/-- C1: every record the parser yields — and hence every record ever
appended to the in-memory buffer or newly persisted to the output file
during a run — has an address matching
`(bc1|[13])[a-zA-HJ-NP-Z0-9]{25,90}`; every five-cell table row whose
stripped address violates the pattern gets a warning logged and no record
with that address in the parse result. -/
theorem c1_stored_addresses_valid :
    (∀ (join : String → String) (now : Nat → String) (soup : PageSoup) (clock : Nat)
       (ds : List Record) (logs : List LogEv) (clk : Nat),
       parse_page join now soup clock = (.ok ds, logs, clk) → allValid ds)
    ∧ (∀ (join : String → String) (now : Nat → String) (t : STable) (hdr row : SRow)
       (rows : List SRow) (c0 c1 c2 c3 c4 : String) (tl : List String)
       (clock : Nat) (ds : List Record) (logs : List LogEv) (clk : Nat),
       t.trs = hdr :: rows → row ∈ rows →
       row.tds = c0 :: c1 :: c2 :: c3 :: c4 :: tl →
       re_match_address (pyStrip c1) = false →
       parse_page join now (some t) clock = (.ok ds, logs, clk) →
       LogEv.warnInvalidAddress (pyStrip c1) ∈ logs ∧ ∀ r ∈ ds, r.address ≠ pyStrip c1)
    ∧ (∀ (env : ScrapeEnv) (fuel : Nat) (initFile : Option (List Record))
       (out : Nat × StopReason × ScrapeSt × List RunEv),
       allValid (fileRows initFile) →
       scrape_database env fuel initFile = some out →
       allValid out.2.2.1.produced ∧ allValid out.2.2.1.store.scraped_data
         ∧ allValid (fileRows out.2.2.1.store.file)) := by
  refine ⟨?_, ?_, ?_⟩
  · exact fun join now soup clock ds logs clk h =>
      parse_page_ok_valid join now soup clock ds logs clk h
  · intro join now t hdr row rows c0 c1 c2 c3 c4 tl clock ds logs clk ht hmem htds hbad h
    refine ⟨parse_page_warns join now t hdr rows row c0 c1 c2 c3 c4 tl clock ds logs clk
      ht hmem htds hbad h, ?_⟩
    intro r hr hra
    have hv := parse_page_ok_valid join now _ clock ds logs clk h r hr
    rw [hra, hbad] at hv
    cases hv
  · intro env fuel initFile out hinit h
    obtain ⟨⟨hb, hf⟩, hp, -⟩ := scrape_database_inv env fuel initFile out hinit h
    exact ⟨hp, hb, hf⟩

/-- C1 witness: a concrete page with one valid row parses to a record whose
address the theorem certifies as pattern-valid. -/
theorem c1_stored_addresses_valid_witness :
    parse_page (fun u => u) (fun _ => "ts") pageW 0 = (.ok [recW], [], 1)
    ∧ re_match_address recW.address = true := by
  refine ⟨by rfl, ?_⟩
  exact c1_stored_addresses_valid.1 (fun u => u) (fun _ => "ts") pageW 0
    [recW] [] 1 (by rfl) recW (by simp)

/-- C9: whenever a run ends — normal stop, crash, or interrupt — the
returned count equals `total_records`, which counts exactly the records
produced across all pages; the final forced flush leaves an empty buffer
and (when the file operations succeed) persists every buffered record; and
the very last run event is the session close. -/
theorem c9_final_flush_close_return :
    ∀ (env : ScrapeEnv) (fuel : Nat) (initFile : Option (List Record))
      (out : Nat × StopReason × ScrapeSt × List RunEv),
      scrape_database env fuel initFile = some out →
      out.1 = out.2.2.1.total_records
      ∧ out.1 = out.2.2.1.produced.length
      ∧ out.2.2.1.store.scraped_data = []
      ∧ out.2.2.2.getLast? = some RunEv.sessionClose
      ∧ (∀ (r0 : StopReason) (s0 : ScrapeSt) (evs0 : List RunEv),
           scrape_loop env fuel (initSt initFile) = some (r0, s0, evs0) →
           env.writeOk s0.flushes = true →
           (s0.store.file = none ∨ env.readOk s0.flushes = true) →
           ∀ x ∈ s0.store.scraped_data, x ∈ fileRows out.2.2.1.store.file) := by
  intro env fuel initFile out h
  unfold scrape_database at h
  rcases ho : scrape_loop env fuel (initSt initFile) with - | ⟨r, s2, evs⟩
  · rw [ho] at h; simp at h
  · rw [ho] at h
    simp only [Option.map_some', Option.some.injEq] at h
    subst h
    refine ⟨rfl, ?_, ?_, ?_, ?_⟩
    · have hc := scrape_loop_count env fuel _ r s2 evs rfl ho
      exact hc
    · exact save_progress_buffer_nil _ _ _ _
    · show (evs ++ (scrape_finalize env s2).2).getLast? = some RunEv.sessionClose
      rw [List.getLast?_append]
      have hfin : (scrape_finalize env s2).2.getLast? = some RunEv.sessionClose := by
        simp only [scrape_finalize]
        rw [List.getLast?_append]
        rfl
      rw [hfin]
      rfl
    · intro r0 s0 evs0 h0 hw hr x hx
      simp only [Option.some.injEq, Prod.mk.injEq] at h0
      obtain ⟨-, h2, -⟩ := h0
      subst h2
      show x ∈ fileRows (save_progress true (env.readOk s2.flushes)
        (env.writeOk s2.flushes) s2.store).1.file
      exact save_progress_keeps true _ _ s2.store hw hr x hx

/-- C9 witness: a one-page run with no next-page marker returns count 1
(one produced record), ends with a cleared buffer, flushes the record to
the file, and closes the session last. -/
theorem c9_final_flush_close_return_witness :
    scrape_database envW 1 none = some (1, .noMorePages,
      { page := 1, total_records := 1, consecutive_empty := 0,
        store := { scraped_data := [], file := some [recW] },
        clock := 1, flushes := 1, produced := [recW] },
      [.sleepPoliteness, .log .infoNoMorePages, .fs (.writeFile [recW]),
       .log (.infoSaved 1), .log (.infoComplete 1), .sessionClose])
    ∧ (1 : Nat) = [recW].length
    ∧ ([RunEv.sleepPoliteness, .log .infoNoMorePages, .fs (.writeFile [recW]),
        .log (.infoSaved 1), .log (.infoComplete 1), .sessionClose]).getLast?
        = some RunEv.sessionClose := by
  have h : scrape_database envW 1 none = some (1, .noMorePages,
      { page := 1, total_records := 1, consecutive_empty := 0,
        store := { scraped_data := [], file := some [recW] },
        clock := 1, flushes := 1, produced := [recW] },
      [.sleepPoliteness, .log .infoNoMorePages, .fs (.writeFile [recW]),
       .log (.infoSaved 1), .log (.infoComplete 1), .sessionClose]) := by rfl
  have h2 := c9_final_flush_close_return envW 1 none _ h
  exact ⟨h, h2.2.1, h2.2.2.2.1⟩

/-! ## Iteration reduction lemmas -/

/-- When none of the three leading checks fires, an iteration reduces to
the fetch-and-parse part of the loop body. -/
theorem scrape_iter_to_fetch (env : ScrapeEnv) (s : ScrapeSt)
    (e1 : max_pages_hit env.max_pages s.page = false)
    (e2 : env.test_mode = false)
    (e3 : interrupt_hit env.interruptAt s.page = false) :
    scrape_iter env s =
      (match env.fetch (page_url s.page) with
       | none => .stopWith .pageUnavailable s [.sleepPoliteness, .log (.errPageFailed s.page)]
       | some fp =>
         match parse_page env.join env.now fp.soup s.clock with
         | (.error _, logs, clk) =>
             .stopWith .crashed { s with clock := clk }
               ([.sleepPoliteness] ++ logs.map .log ++ [.log .errCritical])
         | (.ok data, logs, clk) =>
           let s1 : ScrapeSt :=
             if data.isEmpty then
               { s with consecutive_empty := s.consecutive_empty + 1, clock := clk }
             else
               { s with consecutive_empty := 0,
                        store := { s.store with
                                   scraped_data := s.store.scraped_data ++ data },
                        produced := s.produced ++ data,
                        total_records := s.total_records + data.length,
                        clock := clk }
           if data.isEmpty && decide (s1.consecutive_empty ≥ 3) then
             .stopWith .threeEmpty s1
               ([.sleepPoliteness] ++ logs.map .log ++ [.log .infoEmptyStop])
           else scrape_iter_tail env fp logs s1) := by
  unfold scrape_iter
  rw [e1, e2, e3]
  rfl

/-- A failed fetch stops the iteration with `pageUnavailable`. -/
theorem scrape_iter_fetch_fail (env : ScrapeEnv) (s : ScrapeSt)
    (e1 : max_pages_hit env.max_pages s.page = false)
    (e2 : env.test_mode = false)
    (e3 : interrupt_hit env.interruptAt s.page = false)
    (hf : env.fetch (page_url s.page) = none) :
    scrape_iter env s
      = .stopWith .pageUnavailable s [.sleepPoliteness, .log (.errPageFailed s.page)] := by
  rw [scrape_iter_to_fetch env s e1 e2 e3, hf]

/-- A page parsing to no records, with fewer than two empties so far,
continues into the iteration tail with the empty counter bumped. -/
theorem scrape_iter_parse_empty_cont (env : ScrapeEnv) (s : ScrapeSt)
    (e1 : max_pages_hit env.max_pages s.page = false)
    (e2 : env.test_mode = false)
    (e3 : interrupt_hit env.interruptAt s.page = false)
    (fp : FetchedPage) (hf : env.fetch (page_url s.page) = some fp)
    (logs : List LogEv) (clk : Nat)
    (hpp : parse_page env.join env.now fp.soup s.clock = (.ok [], logs, clk))
    (hce : s.consecutive_empty + 1 < 3) :
    scrape_iter env s = scrape_iter_tail env fp logs
      { s with consecutive_empty := s.consecutive_empty + 1, clock := clk } := by
  rw [scrape_iter_to_fetch env s e1 e2 e3, hf]
  simp only [hpp, List.isEmpty_nil, Bool.true_and, if_true, reduceIte]
  rw [if_neg (by simp only [decide_eq_true_eq]; omega)]

/-- A third consecutive empty page stops the iteration with `threeEmpty`. -/
theorem scrape_iter_parse_empty_stop (env : ScrapeEnv) (s : ScrapeSt)
    (e1 : max_pages_hit env.max_pages s.page = false)
    (e2 : env.test_mode = false)
    (e3 : interrupt_hit env.interruptAt s.page = false)
    (fp : FetchedPage) (hf : env.fetch (page_url s.page) = some fp)
    (logs : List LogEv) (clk : Nat)
    (hpp : parse_page env.join env.now fp.soup s.clock = (.ok [], logs, clk))
    (hce : s.consecutive_empty + 1 ≥ 3) :
    scrape_iter env s = .stopWith .threeEmpty
      { s with consecutive_empty := s.consecutive_empty + 1, clock := clk }
      ([.sleepPoliteness] ++ logs.map .log ++ [.log .infoEmptyStop]) := by
  rw [scrape_iter_to_fetch env s e1 e2 e3, hf]
  simp only [hpp, List.isEmpty_nil, Bool.true_and, if_true, reduceIte]
  rw [if_pos (by simp only [decide_eq_true_eq]; omega)]

/-- A page parsing to at least one record continues into the iteration tail
with the counters advanced. -/
theorem scrape_iter_parse_full (env : ScrapeEnv) (s : ScrapeSt)
    (e1 : max_pages_hit env.max_pages s.page = false)
    (e2 : env.test_mode = false)
    (e3 : interrupt_hit env.interruptAt s.page = false)
    (fp : FetchedPage) (hf : env.fetch (page_url s.page) = some fp)
    (d0 : Record) (drest : List Record) (logs : List LogEv) (clk : Nat)
    (hpp : parse_page env.join env.now fp.soup s.clock = (.ok (d0 :: drest), logs, clk)) :
    scrape_iter env s = scrape_iter_tail env fp logs
      { s with consecutive_empty := 0,
               store := { s.store with
                          scraped_data := s.store.scraped_data ++ (d0 :: drest) },
               produced := s.produced ++ (d0 :: drest),
               total_records := s.total_records + (d0 :: drest).length,
               clock := clk } := by
  rw [scrape_iter_to_fetch env s e1 e2 e3, hf]
  simp only [hpp, List.isEmpty_cons, Bool.false_and, Bool.false_eq_true, if_neg,
    not_false_eq_true, reduceIte]

/-- With a next-page indicator present, the iteration tail always continues
to the next page, leaving the empty counter alone. -/
theorem scrape_iter_tail_next (env : ScrapeEnv) (fp : FetchedPage) (logs : List LogEv)
    (s1 : ScrapeSt) (hn : fp.hasNext = true) :
    ∃ s2 evs, scrape_iter_tail env fp logs s1 = .continueWith s2 evs
      ∧ s2.page = s1.page + 1 ∧ s2.consecutive_empty = s1.consecutive_empty := by
  unfold scrape_iter_tail
  rw [hn]
  by_cases hmod : (s1.page % SAVE_INTERVAL == 0) = true
  · rw [if_pos hmod, if_neg (by simp)]
    exact ⟨_, _, rfl, rfl, rfl⟩
  · rw [if_neg hmod, if_neg (by simp)]
    exact ⟨_, _, rfl, rfl, rfl⟩

/-! ## C5 scenarios -/

theorem scrape_loop_succ_cont (env : ScrapeEnv) (n : Nat) (s s3 : ScrapeSt)
    (evs3 : List RunEv) (hit : scrape_iter env s = .continueWith s3 evs3) :
    scrape_loop env (n + 1) s
      = (scrape_loop env n s3).map (fun out => (out.1, out.2.1, evs3 ++ out.2.2)) := by
  simp only [scrape_loop, hit]

theorem scrape_loop_succ_stop (env : ScrapeEnv) (n : Nat) (s : ScrapeSt) (r : StopReason)
    (s3 : ScrapeSt) (evs3 : List RunEv) (hit : scrape_iter env s = .stopWith r s3 evs3) :
    scrape_loop env (n + 1) s = some (r, s3, evs3) := by
  simp only [scrape_loop, hit]

theorem iter_empty_step (env : ScrapeEnv) (h : envAllEmptyNext env) (s : ScrapeSt)
    (hce : s.consecutive_empty + 1 < 3) :
    ∃ s2 evs, scrape_iter env s = .continueWith s2 evs
      ∧ s2.page = s.page + 1 ∧ s2.consecutive_empty = s.consecutive_empty + 1 := by
  obtain ⟨hint, htest, hmax, hfetch⟩ := h
  obtain ⟨fp, hf, hn, hp⟩ := hfetch s.page
  obtain ⟨logs, hpp⟩ := hp s.clock
  have e1 : max_pages_hit env.max_pages s.page = false := by rw [hmax]; rfl
  have e3 : interrupt_hit env.interruptAt s.page = false := by rw [hint]; rfl
  have hi := scrape_iter_parse_empty_cont env s e1 htest e3 fp hf logs s.clock hpp hce
  obtain ⟨s2, evs, ht, hp2, hc2⟩ := scrape_iter_tail_next env fp logs _ hn
  exact ⟨s2, evs, by rw [hi, ht], by rw [hp2], by rw [hc2]⟩

theorem iter_empty_stop3 (env : ScrapeEnv) (h : envAllEmptyNext env) (s : ScrapeSt)
    (hce : s.consecutive_empty + 1 ≥ 3) :
    ∃ s2 evs, scrape_iter env s = .stopWith .threeEmpty s2 evs := by
  obtain ⟨hint, htest, hmax, hfetch⟩ := h
  obtain ⟨fp, hf, hn, hp⟩ := hfetch s.page
  obtain ⟨logs, hpp⟩ := hp s.clock
  have e1 : max_pages_hit env.max_pages s.page = false := by rw [hmax]; rfl
  have e3 : interrupt_hit env.interruptAt s.page = false := by rw [hint]; rfl
  exact ⟨_, _, scrape_iter_parse_empty_stop env s e1 htest e3 fp hf logs s.clock hpp hce⟩

theorem scrape_c5_empty (env : ScrapeEnv) (f : Option (List Record)) (fuel : Nat)
    (h : envAllEmptyNext env) (hfuel : 3 ≤ fuel) :
    (scrape_database env fuel f).map (fun o => o.2.1) = some .threeEmpty := by
  obtain ⟨k, rfl⟩ : ∃ k, fuel = k + 3 := ⟨fuel - 3, by omega⟩
  obtain ⟨s1, evs1, hi1, hp1, hc1⟩ := iter_empty_step env h (initSt f) (by simp [initSt])
  obtain ⟨s2, evs2, hi2, hp2, hc2⟩ := iter_empty_step env h s1 (by rw [hc1]; simp [initSt])
  obtain ⟨s3, evs3, hi3⟩ := iter_empty_stop3 env h s2 (by rw [hc2, hc1]; simp [initSt])
  have l3 : scrape_loop env (k + 1) s2 = some (.threeEmpty, s3, evs3) :=
    scrape_loop_succ_stop env k s2 _ s3 evs3 hi3
  have l2 : scrape_loop env (k + 2) s1 = some (.threeEmpty, s3, evs2 ++ evs3) := by
    have e : k + 2 = (k + 1) + 1 := by omega
    rw [e, scrape_loop_succ_cont env (k + 1) s1 s2 evs2 hi2, l3]
    rfl
  have l1 : scrape_loop env (k + 3) (initSt f)
      = some (.threeEmpty, s3, evs1 ++ (evs2 ++ evs3)) := by
    have e : k + 3 = (k + 2) + 1 := by omega
    rw [e, scrape_loop_succ_cont env (k + 2) (initSt f) s1 evs1 hi1, l2]
    rfl
  simp [scrape_database, l1]

theorem iter_full_step (env : ScrapeEnv) (h : envAllFullNext env) (m : Nat)
    (hmax : env.max_pages = some m) (s : ScrapeSt) (hpage : s.page ≤ m) :
    ∃ s2 evs, scrape_iter env s = .continueWith s2 evs ∧ s2.page = s.page + 1 := by
  obtain ⟨hint, htest, hfetch⟩ := h
  obtain ⟨fp, hf, hn, hp⟩ := hfetch s.page
  obtain ⟨ds, logs, clk, hpp, hne⟩ := hp s.clock
  cases ds with
  | nil => exact absurd rfl hne
  | cons d0 drest =>
    have e1 : max_pages_hit env.max_pages s.page = false := by
      rw [hmax]
      simp only [max_pages_hit]
      rw [decide_eq_false (by omega), Bool.and_false]
    have e3 : interrupt_hit env.interruptAt s.page = false := by rw [hint]; rfl
    have hi := scrape_iter_parse_full env s e1 htest e3 fp hf d0 drest logs clk hpp
    obtain ⟨s2, evs, ht, hp2, -⟩ := scrape_iter_tail_next env fp logs _ hn
    exact ⟨s2, evs, by rw [hi, ht], by rw [hp2]⟩

theorem scrape_loop_max (env : ScrapeEnv) (m : Nat) (h : envAllFullNext env)
    (hmax : env.max_pages = some m) (hm : m ≠ 0) :
    ∀ (fuel : Nat) (s : ScrapeSt), s.page ≤ m + 1 → m + 2 - s.page ≤ fuel →
      ∃ s2 evs, scrape_loop env fuel s = some (.maxPagesReached, s2, evs) := by
  intro fuel
  induction fuel with
  | zero =>
      intro s h2 h3
      exact absurd h3 (by omega)
  | succ n ih =>
      intro s h2 h3
      by_cases hgt : s.page > m
      · have e1 : max_pages_hit env.max_pages s.page = true := by
          rw [hmax]
          simp only [max_pages_hit]
          rw [decide_eq_true hgt]
          simp [hm]
        have hi : scrape_iter env s = .stopWith .maxPagesReached s [.log .infoMaxPages] := by
          unfold scrape_iter
          rw [e1]
          rfl
        exact ⟨s, [.log .infoMaxPages], scrape_loop_succ_stop env n s _ s _ hi⟩
      · have hpage : s.page ≤ m := by omega
        obtain ⟨s2, evs, hi, hp2⟩ := iter_full_step env h m hmax s hpage
        obtain ⟨s3, evs3, hl⟩ := ih s2 (by omega) (by omega)
        refine ⟨s3, evs ++ evs3, ?_⟩
        rw [scrape_loop_succ_cont env n s s2 evs hi, hl]
        rfl

theorem scrape_c5_max (env : ScrapeEnv) (f : Option (List Record)) (fuel m : Nat)
    (h : envAllFullNext env) (hmax : env.max_pages = some m) (hm : m ≠ 0)
    (hfuel : m + 1 ≤ fuel) :
    (scrape_database env fuel f).map (fun o => o.2.1) = some .maxPagesReached := by
  obtain ⟨s2, evs, hl⟩ := scrape_loop_max env m h hmax hm fuel (initSt f)
    (by simp [initSt]) (by simp only [initSt]; omega)
  simp [scrape_database, hl]

/-- C5: the loop checks its stop conditions in source order — the
page-count limit first (it fires regardless of anything the network would
return), then the test-mode cap, then the later checks; in particular three
consecutive empty pages stop a run even though every page advertises a next
page, and a page-count limit `m ≠ 0` stops a run with reason
`maxPagesReached` even though every page is available, non-empty, and has a
next page. -/
theorem c5_stop_conditions :
    (∀ (env : ScrapeEnv) (s : ScrapeSt), max_pages_hit env.max_pages s.page = true →
        scrape_iter env s = .stopWith .maxPagesReached s [.log .infoMaxPages])
    ∧ (∀ (env : ScrapeEnv) (s : ScrapeSt), max_pages_hit env.max_pages s.page = false →
        env.test_mode = true → s.page > 2 →
        scrape_iter env s = .stopWith .testModeDone s [.log .infoTestMode])
    ∧ (∀ (env : ScrapeEnv) (f : Option (List Record)) (fuel : Nat),
        envAllEmptyNext env → 3 ≤ fuel →
        (scrape_database env fuel f).map (fun o => o.2.1) = some .threeEmpty)
    ∧ (∀ (env : ScrapeEnv) (f : Option (List Record)) (fuel m : Nat),
        envAllFullNext env → env.max_pages = some m → m ≠ 0 → m + 1 ≤ fuel →
        (scrape_database env fuel f).map (fun o => o.2.1) = some .maxPagesReached) := by
  refine ⟨?_, ?_, ?_, ?_⟩
  · intro env s h
    unfold scrape_iter
    rw [h]
    rfl
  · intro env s h1 h2 h3
    have h4 : (env.test_mode && decide (s.page > 2)) = true := by
      rw [h2, decide_eq_true h3]
      rfl
    unfold scrape_iter
    rw [h1, h4]
    rfl
  · exact fun env f fuel h hf => scrape_c5_empty env f fuel h hf
  · exact fun env f fuel m h hmax hm hf => scrape_c5_max env f fuel m h hmax hm hf

/-- C5 witness: the two scenarios run on concrete environments. -/
theorem c5_stop_conditions_witness :
    (scrape_database envEmptyW 3 none).map (fun o => o.2.1) = some .threeEmpty
    ∧ (scrape_database envFullW 3 none).map (fun o => o.2.1) = some .maxPagesReached := by
  constructor
  · exact c5_stop_conditions.2.2.1 envEmptyW none 3
      ⟨rfl, rfl, rfl, fun p => ⟨_, rfl, rfl, fun c => ⟨[.infoNoRows], rfl⟩⟩⟩
      (by omega)
  · exact c5_stop_conditions.2.2.2 envFullW none 3 2
      ⟨rfl, rfl, fun p => ⟨_, rfl, rfl, fun c => ⟨[recW], [], c + 1, rfl, by simp⟩⟩⟩
      rfl (by omega) (by omega)

/-! ## C6: retry with exponential backoff -/

theorem retryFrom_all_fail (env : RetryEnv) :
    ∀ (n a : Nat), (∀ i, a ≤ i → i < a + n → attempt_ok (env.outcome i) = none) →
      retryFrom env a n
        = (none, (List.range' a n).map (fun i => (2 ^ i : ℚ) + env.jitter i)) := by
  intro n
  induction n with
  | zero => intro a h; simp [retryFrom]
  | succ k ih =>
      intro a h
      have h0 : attempt_ok (env.outcome a) = none := h a (by omega) (by omega)
      simp only [retryFrom, h0]
      rw [ih (a + 1) (fun i h1 h2 => h i (by omega) (by omega))]
      simp [List.range']

theorem retryFrom_success (env : RetryEnv) :
    ∀ (k n a : Nat) (t : String), k < n →
      (∀ i, a ≤ i → i < a + k → attempt_ok (env.outcome i) = none) →
      attempt_ok (env.outcome (a + k)) = some t →
      retryFrom env a n
        = (some t, (List.range' a k).map (fun i => (2 ^ i : ℚ) + env.jitter i)) := by
  intro k
  induction k with
  | zero =>
      intro n a t hk hnone hsucc
      cases n with
      | zero => omega
      | succ n2 =>
          have hs : attempt_ok (env.outcome a) = some t := by simpa using hsucc
          simp only [retryFrom, hs]
          simp [List.range']
  | succ k2 ih =>
      intro n a t hk hnone hsucc
      cases n with
      | zero => omega
      | succ n2 =>
          have h0 : attempt_ok (env.outcome a) = none := hnone a (by omega) (by omega)
          simp only [retryFrom, h0]
          rw [ih n2 (a + 1) t (by omega)
            (fun i h1 h2 => hnone i (by omega) (by omega))
            (by rw [show a + 1 + k2 = a + (k2 + 1) from by omega]; exact hsucc)]
          simp [List.range']

/-- C6: every failed attempt (transport error, blocked body, or missing
table marker) is followed by a sleep of `2 ^ attempt + jitter` seconds and
a retry; a success within the 5-attempt ceiling returns the response after
exactly the earlier failures' sleeps; exhausting all 5 attempts returns
`none` after 5 sleeps; the jitter keeps each sleep in
`[2 ^ attempt, 2 ^ attempt + 1)`; and the controller treats a `none` fetch
as page-unavailable and stops. -/
theorem c6_retry_backoff :
    (∀ env : RetryEnv, (∀ i, i < RETRY_LIMIT → attempt_ok (env.outcome i) = none) →
        request_with_retry env
          = (none, (List.range' 0 RETRY_LIMIT).map (fun i => (2 ^ i : ℚ) + env.jitter i)))
    ∧ (∀ (env : RetryEnv) (k : Nat) (t : String), k < RETRY_LIMIT →
        (∀ i, i < k → attempt_ok (env.outcome i) = none) →
        attempt_ok (env.outcome k) = some t →
        request_with_retry env
          = (some t, (List.range' 0 k).map (fun i => (2 ^ i : ℚ) + env.jitter i)))
    ∧ (∀ (env : RetryEnv) (i : Nat), 0 ≤ env.jitter i → env.jitter i < 1 →
        (2 ^ i : ℚ) ≤ (2 ^ i : ℚ) + env.jitter i
          ∧ (2 ^ i : ℚ) + env.jitter i < (2 ^ i : ℚ) + 1)
    ∧ (∀ (env : ScrapeEnv) (s : ScrapeSt),
        max_pages_hit env.max_pages s.page = false → env.test_mode = false →
        interrupt_hit env.interruptAt s.page = false →
        env.fetch (page_url s.page) = none →
        scrape_iter env s = .stopWith .pageUnavailable s
          [.sleepPoliteness, .log (.errPageFailed s.page)]) := by
  refine ⟨?_, ?_, ?_, ?_⟩
  · intro env h
    exact retryFrom_all_fail env RETRY_LIMIT 0 (fun i h1 h2 => h i (by omega))
  · intro env k t hk hnone hsucc
    exact retryFrom_success env k RETRY_LIMIT 0 t hk
      (fun i h1 h2 => hnone i (by omega)) (by simpa using hsucc)
  · intro env i h0 h1
    exact ⟨by linarith, by linarith⟩
  · exact fun env s e1 e2 e3 hf => scrape_iter_fetch_fail env s e1 e2 e3 hf

/-- C6 witness: three transport failures then a good body yields that body
after sleeps 1.5, 2.5, 4.5; five failures yield `none` after five sleeps. -/
theorem c6_retry_backoff_witness :
    attempt_ok (renvW.outcome 3)
      = some "<html><table class=x>table table-striped</table></html>"
    ∧ request_with_retry renvW
      = (some "<html><table class=x>table table-striped</table></html>",
         [1 + (1 : ℚ) / 2, 2 + (1 : ℚ) / 2, 4 + (1 : ℚ) / 2])
    ∧ request_with_retry renvFailW
      = (none, [1 + (1 : ℚ) / 2, 2 + (1 : ℚ) / 2, 4 + (1 : ℚ) / 2,
                8 + (1 : ℚ) / 2, 16 + (1 : ℚ) / 2]) := by
  have h1 : attempt_ok (renvW.outcome 3)
      = some "<html><table class=x>table table-striped</table></html>" := by rfl
  refine ⟨h1, ?_, ?_⟩
  · have h2 := c6_retry_backoff.2.1 renvW 3
      "<html><table class=x>table table-striped</table></html>"
      (by simp [RETRY_LIMIT]) (fun i hi => by interval_cases i <;> rfl) h1
    rw [h2]
    simp [List.range', renvW]
    norm_num
  · have h3 := c6_retry_backoff.1 renvFailW (fun i hi => rfl)
    rw [h3]
    simp [List.range', renvFailW, RETRY_LIMIT]
    norm_num

/-! ## C7: search semantics -/

theorem compileChars_lits :
    ∀ (l : List Char), (∀ c ∈ l, reMeta c = false ∧ (c == '.') = false) →
      compileChars l = some (l.map RTok.lit) := by
  intro l
  induction l with
  | nil => intro h; rfl
  | cons c cs ih =>
      intro h
      obtain ⟨h1, h2⟩ := h c (by simp)
      simp [compileChars, h1, h2, ih (fun d hd => h d (List.mem_cons_of_mem _ hd))]

theorem matchesAt_lits :
    ∀ (ps cs : List Char),
      matchesAt (ps.map RTok.lit) cs
        = startsWithL (ps.map Char.toLower) (cs.map Char.toLower) := by
  intro ps
  induction ps with
  | nil => intro cs; cases cs <;> rfl
  | cons p ps2 ih =>
      intro cs
      cases cs with
      | nil => rfl
      | cons c cs2 => simp [matchesAt, startsWithL, tokMatches, ih]

theorem reSearchL_lits :
    ∀ (cs ps : List Char),
      reSearchL (ps.map RTok.lit) cs
        = isInfixB (ps.map Char.toLower) (cs.map Char.toLower) := by
  intro cs
  induction cs with
  | nil =>
      intro ps
      cases ps <;> rfl
  | cons c cs2 ih =>
      intro ps
      simp [reSearchL, isInfixB, matchesAt_lits, ih]

theorem reSearchS_lits (kw cell : String) :
    reSearchS (kw.data.map RTok.lit) cell = ciContains kw cell := by
  show reSearchL (kw.data.map RTok.lit) cell.data = _
  rw [reSearchL_lits]
  rfl

/-- C7 (amended): `search_database` interprets the keyword as a regular
expression; restricted to keywords free of regex metacharacters, the
returned rows are exactly those in which some column contains the keyword
as a case-insensitive substring. -/
theorem c7_search_amended (kw : String) (df : List DBRow) (fmt : OutputFormat)
    (hlit : ∀ c ∈ kw.data, reMeta c = false ∧ (c == '.') = false) :
    ∀ out, search_database kw (some df) fmt = some out →
      out.1 = df.filter (fun row => row.any (fun cell => ciContains kw cell)) := by
  intro out h
  have hc : compileRegex kw = some (kw.data.map RTok.lit) := compileChars_lits kw.data hlit
  have hpt : ∀ cell, reSearchS (kw.data.map RTok.lit) cell = ciContains kw cell :=
    fun cell => reSearchS_lits kw cell
  have hfil : df.filter (fun row => rowMatches (kw.data.map RTok.lit) row)
      = df.filter (fun row => row.any (fun cell => ciContains kw cell)) := by
    apply List.filter_congr
    intro row hrow
    simp only [rowMatches, hpt]
  simp only [search_database, hc] at h
  rw [hfil] at h
  split at h
  case isTrue hEmpty =>
      simp only [Option.some.injEq] at h
      rw [← h]
      exact (List.isEmpty_iff.mp hEmpty).symm
  case isFalse hEmpty =>
      cases fmt <;> simp only [Option.some.injEq] at h <;> rw [← h]

/-- C7 counterexample: with keyword `1.3` (whose `.` is a regex wildcard
under pandas `str.contains`), the search returns the row `123` although no
column contains `1.3` as a substring — refuting the claim as stated. -/
theorem c7_search_counterexample :
    search_database "1.3" (some [["123"]]) .console
      = some ([["123"]], [.printConsole [["123"]], .logFound 1])
    ∧ ciContains "1.3" "123" = false :=
  ⟨rfl, rfl⟩

/-- C7 witness: for the metacharacter-free keyword `BTC` the result is
exactly the case-insensitive-substring filter. -/
theorem c7_search_amended_witness :
    search_database "BTC" (some [["btc-derived"], ["zzz"]]) .console
      = some ([["btc-derived"]], [.printConsole [["btc-derived"]], .logFound 1])
    ∧ ([["btc-derived"]] : List DBRow)
      = [["btc-derived"], ["zzz"]].filter
          (fun row => row.any (fun cell => ciContains "BTC" cell)) := by
  have h : search_database "BTC" (some [["btc-derived"], ["zzz"]]) .console
      = some ([["btc-derived"]], [.printConsole [["btc-derived"]], .logFound 1]) := by rfl
  refine ⟨h, ?_⟩
  exact c7_search_amended "BTC" [["btc-derived"], ["zzz"]] .console (by decide) _ h

/-! ## C8: the parser can raise -/

/-- C8 (code bug): on a five-cell row whose fifth cell holds an `<a>` tag
without an `href` attribute, `details_link['href']` raises `KeyError`
before the address check, so the parse does not return normally; the
structural-failure path (no table) does return an empty result with a log
line. -/
theorem c8_parse_raises_keyerror :
    parse_page (fun u => u) (fun _ => "ts")
      (some { trs := [rowHdr, { tds := ["9", "x", "0", "k", "v"], linkA := some none }] }) 0
      = (.error .keyErrorHref, [], 0)
    ∧ parse_page (fun u => u) (fun _ => "ts") none 0
      = (.ok [], [.errTableNotFound], 0) :=
  ⟨rfl, rfl⟩

/-! ## C10: no output file without matches -/

/-- C10: a search with zero matching rows returns the empty list and emits
no file write, for every output format; with at least one matching row and
format csv/json, exactly one output file named after the keyword is
written. -/
theorem c10_no_file_when_no_match :
    (∀ (kw : String) (toks : List RTok) (df : List DBRow) (fmt : OutputFormat),
        compileRegex kw = some toks →
        df.filter (fun row => rowMatches toks row) = [] →
        search_database kw (some df) fmt = some ([], [.logNoMatches]))
    ∧ (∀ (kw : String) (toks : List RTok) (df res : List DBRow),
        compileRegex kw = some toks →
        res = df.filter (fun row => rowMatches toks row) → res ≠ [] →
        search_database kw (some df) .csv
          = some (res, [.writeCsvFile ("search_results_" ++ kw ++ ".csv") res,
                        .logFound res.length])
        ∧ search_database kw (some df) .json
          = some (res, [.writeJsonFile ("search_results_" ++ kw ++ ".json") res,
                        .logFound res.length])) := by
  constructor
  · intro kw toks df fmt hc hfil
    simp [search_database, hc, hfil]
  · intro kw toks df res hc hres hne
    have hE : (df.filter fun row => rowMatches toks row).isEmpty = false := by
      rw [← hres]
      exact isEmpty_false_of_ne hne
    subst hres
    constructor <;> simp [search_database, hc, hE]

/-- C10 witness: the keyword `qq` matches nothing in a one-row dataset, so
a csv-format search returns `[]` with no file written. -/
theorem c10_no_file_when_no_match_witness :
    compileRegex "qq" = some [RTok.lit 'q', RTok.lit 'q']
    ∧ ([["abc"]] : List DBRow).filter
        (fun row => rowMatches [RTok.lit 'q', RTok.lit 'q'] row) = []
    ∧ search_database "qq" (some [["abc"]]) .csv = some ([], [.logNoMatches]) := by
  refine ⟨by rfl, by rfl, ?_⟩
  exact c10_no_file_when_no_match.1 "qq" [RTok.lit 'q', RTok.lit 'q']
    [["abc"]] .csv (by rfl) (by rfl)

end BitcoinScraper
